import Mathlib

/-!
Shallow embedding of the real-time messaging backend (direct and group chat
over a relational store plus a socket router) and proofs about it.

The embedding mirrors, file by file:
* `backend/src/domain/repositories/message.repository.ts`   (`MessageRepository`)
* `backend/src/domain/repositories/conversation.repository.ts` (`ConversationRepository`)
* `backend/src/infrastructure/repositories/group.repository.ts` (`GroupRepository`)
* `backend/src/application/services/chat.service.ts` / `group.service.ts`
  (`ChatService`, `GroupService`)
* `backend/src/infrastructure/socket/socket.ts`             (`SocketService`)

Database tables are lists of rows; SQL `UPDATE ... WHERE` is a `List.map`
that rewrites the matching rows, `DELETE ... WHERE` a `List.filter`,
`SELECT ... LIMIT 1` a `List.find?`, `ORDER BY` an insertion sort on the
sort key, and `LIMIT n OFFSET k` is `(·.drop k).take n` after sorting.
JavaScript numbers that undergo `Number.isInteger` validation are modelled
as rationals (`ℚ`), where `Number.isInteger x` is `x.den = 1`.
The symmetric cipher is an external collaborator and is passed in as a
black-box `String → String → Option String` (`none` models `DecryptionError`).
-/

namespace WhatsappV3

/-- A row of the `messages` table (direct messages), as in the `Message`
interface of `message.repository.ts`. -/
structure Message where
  id : Int
  sender_id : Int
  receiver_id : Int
  encrypted_content : String
  iv : String
  timestamp : Int
  is_read : Bool
  deleted_by_sender : Bool
  deleted_by_receiver : Bool
  deriving Repr, DecidableEq

/-- Comparison used by `ORDER BY timestamp ASC` on direct messages. -/
def tsLe (a b : Message) : Prop := a.timestamp ≤ b.timestamp

instance : DecidableRel tsLe := fun a b =>
  inferInstanceAs (Decidable (a.timestamp ≤ b.timestamp))

instance : IsTotal Message tsLe := ⟨fun a b => Int.le_total a.timestamp b.timestamp⟩

instance : IsTrans Message tsLe := ⟨fun _ _ _ h h2 => le_trans h h2⟩

namespace MessageRepository

/-- The strict parameter validation at the top of
`MessageRepository.getConversationHistory`: all four parameters must be
integers (`Number.isInteger`), ids and limit strictly positive, offset
non-negative. -/
def validHistoryParams (userId contactId limit offset : ℚ) : Bool :=
  decide (userId.den = 1) && decide (contactId.den = 1) &&
  decide (limit.den = 1) && decide (offset.den = 1) &&
  decide (0 < userId) && decide (0 < contactId) &&
  decide (0 < limit) && decide (0 ≤ offset)

/-- The WHERE clause of the history query: the pair matches in either
direction and the calling side's own deletion flag is unset. -/
def historyPred (userId contactId : Int) (m : Message) : Bool :=
  (m.sender_id == userId && m.receiver_id == contactId && !m.deleted_by_sender) ||
  (m.sender_id == contactId && m.receiver_id == userId && !m.deleted_by_receiver)

/-- `MessageRepository.getConversationHistory`: validate the four
parameters, then `SELECT ... WHERE (pair either direction AND own flag
unset) ORDER BY timestamp ASC LIMIT limit OFFSET offset`. -/
def getConversationHistory (db : List Message) (userId contactId limit offset : ℚ) :
    Except String (List Message) :=
  if validHistoryParams userId contactId limit offset then
    let rows := db.filter (historyPred userId.num contactId.num)
    Except.ok (((List.insertionSort tsLe rows).drop offset.num.toNat).take limit.num.toNat)
  else
    Except.error "Parámetros inválidos para getConversationHistory"

/-- `UPDATE messages SET deleted_by_sender = 1 WHERE id = ?`, applied to one row. -/
def setSenderFlag (messageId : Int) (m : Message) : Message :=
  if m.id == messageId then { m with deleted_by_sender := true } else m

/-- `UPDATE messages SET deleted_by_receiver = 1 WHERE id = ?`, applied to one row. -/
def setReceiverFlag (messageId : Int) (m : Message) : Message :=
  if m.id == messageId then { m with deleted_by_receiver := true } else m

/-- `MessageRepository.deleteMessage`: look the message up (404 if absent),
set the caller's side flag if the caller is the sender or the receiver
(silently change nothing otherwise), re-read the row and physically purge
it when both flags have become true. -/
def deleteMessage (db : List Message) (messageId userId : Int) :
    Except String (List Message) :=
  match db.find? (fun m => m.id == messageId) with
  | none => Except.error "Mensaje no encontrado"
  | some msg =>
    let db1 :=
      if msg.sender_id == userId then db.map (setSenderFlag messageId)
      else if msg.receiver_id == userId then db.map (setReceiverFlag messageId)
      else db
    match db1.find? (fun m => m.id == messageId) with
    | none => Except.ok db1
    | some updated =>
      if updated.deleted_by_sender && updated.deleted_by_receiver then
        Except.ok (db1.filter (fun m => !(m.id == messageId)))
      else
        Except.ok db1

end MessageRepository

/-- A row of the `conversations` table (denormalized per-pair summary),
as in the `Conversation` interface of `conversation.repository.ts`. -/
structure Conversation where
  id : Int
  user1_id : Int
  user2_id : Int
  last_message_id : Option Int
  unread_count_user1 : Nat
  unread_count_user2 : Nat
  deriving Repr, DecidableEq

namespace ConversationRepository

/-- The WHERE clause shared by the counter updates:
`(user1_id = smaller AND user2_id = larger) OR (user1_id = larger AND user2_id = smaller)`. -/
def pairMatches (smallerId largerId : Int) (c : Conversation) : Bool :=
  (c.user1_id == smallerId && c.user2_id == largerId) ||
  (c.user1_id == largerId && c.user2_id == smallerId)

/-- Effect of `ConversationRepository.incrementUnreadCount` on one row:
order the pair, pick `unread_count_user1` when the receiver is the smaller
id and `unread_count_user2` otherwise, and bump that column on matching rows. -/
def incRow (receiverId senderId : Int) (c : Conversation) : Conversation :=
  let smallerId := if receiverId < senderId then receiverId else senderId
  let largerId := if receiverId < senderId then senderId else receiverId
  if pairMatches smallerId largerId c then
    if receiverId == smallerId then
      { c with unread_count_user1 := c.unread_count_user1 + 1 }
    else
      { c with unread_count_user2 := c.unread_count_user2 + 1 }
  else c

/-- `ConversationRepository.incrementUnreadCount`, an UPDATE over the table. -/
def incrementUnreadCount (db : List Conversation) (receiverId senderId : Int) :
    List Conversation :=
  db.map (incRow receiverId senderId)

/-- Effect of `ConversationRepository.resetUnreadCount` on one row: the
caller's canonical-side column is zeroed on matching rows. -/
def resetRow (userId contactId : Int) (c : Conversation) : Conversation :=
  let smallerId := if userId < contactId then userId else contactId
  let largerId := if userId < contactId then contactId else userId
  if pairMatches smallerId largerId c then
    if userId == smallerId then
      { c with unread_count_user1 := 0 }
    else
      { c with unread_count_user2 := 0 }
  else c

/-- `ConversationRepository.resetUnreadCount`, an UPDATE over the table. -/
def resetUnreadCount (db : List Conversation) (userId contactId : Int) :
    List Conversation :=
  db.map (resetRow userId contactId)

/-- The projection used by `getUserConversations`:
`CASE WHEN c.user1_id = ? THEN c.unread_count_user1 ELSE c.unread_count_user2 END`. -/
def unreadOf (c : Conversation) (userId : Int) : Nat :=
  if userId == c.user1_id then c.unread_count_user1 else c.unread_count_user2

end ConversationRepository

/-- A row of the `groups` table, as in `Group.entity.ts` (timestamps omitted:
no claim mentions them). -/
structure Group where
  id : Int
  name : String
  description : Option String
  avatarUrl : Option String
  adminUserId : Int
  deriving Repr, DecidableEq

/-- A row of the `group_members` table: a membership window.
`leftAt = none` means currently active. -/
structure GroupMember where
  id : Int
  groupId : Int
  userId : Int
  joinedAt : Int
  leftAt : Option Int
  addedByUserId : Int
  deriving Repr, DecidableEq

/-- A row of the `group_messages` table (the user-join display fields
`senderUsername`, `senderEmail`, `senderAvatarUrl` are presentation-only
and omitted). -/
structure GroupMessage where
  id : Int
  groupId : Int
  senderId : Int
  encryptedContent : String
  iv : String
  timestamp : Int
  editedAt : Option Int
  isDeletedForAll : Bool
  deletedAt : Option Int
  deriving Repr, DecidableEq

/-- The group-side portion of the relational store. -/
structure GroupDB where
  groups : List Group
  members : List GroupMember
  messages : List GroupMessage
  deriving Repr, DecidableEq

/-- Comparison used by `ORDER BY timestamp DESC` on group messages. -/
def gtsGe (a b : GroupMessage) : Prop := b.timestamp ≤ a.timestamp

instance : DecidableRel gtsGe := fun a b =>
  inferInstanceAs (Decidable (b.timestamp ≤ a.timestamp))

instance : IsTotal GroupMessage gtsGe := ⟨fun a b => Int.le_total b.timestamp a.timestamp⟩

instance : IsTrans GroupMessage gtsGe := ⟨fun _ _ _ h h2 => le_trans h2 h⟩

/-- Comparison used by `ORDER BY joined_at DESC` on membership rows. -/
def joinedGe (a b : GroupMember) : Prop := b.joinedAt ≤ a.joinedAt

instance : DecidableRel joinedGe := fun a b =>
  inferInstanceAs (Decidable (b.joinedAt ≤ a.joinedAt))

instance : IsTotal GroupMember joinedGe := ⟨fun a b => Int.le_total b.joinedAt a.joinedAt⟩

instance : IsTrans GroupMember joinedGe := ⟨fun _ _ _ h h2 => le_trans h2 h⟩

namespace GroupRepository

/-- `WHERE group_id = ? AND user_id = ? AND left_at IS NULL` on membership rows. -/
def activeMemberPred (groupId userId : Int) (gm : GroupMember) : Bool :=
  gm.groupId == groupId && gm.userId == userId && gm.leftAt.isNone

/-- `GroupRepository.isActiveMember`. -/
def isActiveMember (db : GroupDB) (groupId userId : Int) : Bool :=
  db.members.any (activeMemberPred groupId userId)

/-- `GroupRepository.getMemberJoinedAt`: the caller's current active
membership row, `ORDER BY joined_at DESC LIMIT 1`. -/
def getMemberJoinedAt (db : GroupDB) (groupId userId : Int) : Option Int :=
  ((List.insertionSort joinedGe
      (db.members.filter (activeMemberPred groupId userId))).head?).map GroupMember.joinedAt

/-- The WHERE clause of the group-history query: same group, timestamp at
or after the caller's joinedAt, and not tombstoned. -/
def visiblePred (groupId joinedAt : Int) (gm : GroupMessage) : Bool :=
  gm.groupId == groupId && decide (joinedAt ≤ gm.timestamp) && !gm.isDeletedForAll

/-- `GroupRepository.getGroupMessages`: resolve the caller's current active
joinedAt (throwing when there is none), then
`SELECT ... WHERE group AND timestamp >= joinedAt AND is_deleted_for_all = 0
ORDER BY timestamp DESC LIMIT ? OFFSET ?`. -/
def getGroupMessages (db : GroupDB) (groupId userId : Int) (limit offset : Nat) :
    Except String (List GroupMessage) :=
  match getMemberJoinedAt db groupId userId with
  | none => Except.error "No eres miembro de este grupo"
  | some joinedAt =>
    let rows := db.messages.filter (visiblePred groupId joinedAt)
    Except.ok (((List.insertionSort gtsGe rows).drop offset).take limit)

/-- Input of `GroupRepository.createGroup`. -/
structure CreateGroupDTO where
  name : String
  description : Option String
  avatarUrl : Option String
  adminUserId : Int
  deriving Repr, DecidableEq

/-- `GroupRepository.createGroup`: one transaction inserting the group row
and then the admin's own membership row. The two booleans inject failure of
either INSERT (the database throwing); the `catch` performs `rollback`, so
on failure the persistent state returned in the first component is the
original `db`, and the error propagates in the second component. -/
def createGroup (db : GroupDB) (data : CreateGroupDTO)
    (newGroupId newMemberRowId now : Int) (insertGroupOk insertMemberOk : Bool) :
    GroupDB × Except String Group :=
  if insertGroupOk then
    let g : Group :=
      { id := newGroupId
        name := data.name
        description := data.description
        avatarUrl := data.avatarUrl
        adminUserId := data.adminUserId }
    let db1 : GroupDB := { db with groups := db.groups ++ [g] }
    if insertMemberOk then
      let row : GroupMember :=
        { id := newMemberRowId
          groupId := newGroupId
          userId := data.adminUserId
          joinedAt := now
          leftAt := none
          addedByUserId := data.adminUserId }
      ({ db1 with members := db1.members ++ [row] }, Except.ok g)
    else (db, Except.error "rollback: INSERT INTO group_members failed")
  else (db, Except.error "rollback: INSERT INTO groups failed")

/-- `GroupRepository.isGroupAdmin`. -/
def isGroupAdmin (db : GroupDB) (groupId userId : Int) : Bool :=
  db.groups.any (fun g => g.id == groupId && g.adminUserId == userId)

/-- `GroupRepository.getGroupById`. -/
def getGroupById (db : GroupDB) (groupId : Int) : Option Group :=
  db.groups.find? (fun g => g.id == groupId)

/-- `GroupRepository.removeMember`: only the admin may remove, the admin
itself can never be removed, and removal marks `left_at = NOW()` on the
active row instead of deleting it. The Bool result is `affectedRows > 0`
of the UPDATE (false on both authorization refusals). -/
def removeMember (db : GroupDB) (groupId userId removedByUserId now : Int) :
    GroupDB × Bool :=
  if isGroupAdmin db groupId removedByUserId then
    if (getGroupById db groupId).map Group.adminUserId == some userId then (db, false)
    else
      let affected := db.members.any (activeMemberPred groupId userId)
      ({ db with members := db.members.map (fun gm =>
          if activeMemberPred groupId userId gm then { gm with leftAt := some now }
          else gm) }, affected)
  else (db, false)

/-- Input of `GroupRepository.updateGroupMessage`. -/
structure UpdateGroupMessageDTO where
  messageId : Int
  userId : Int
  encryptedContent : String
  iv : String
  deriving Repr, DecidableEq

/-- `GroupRepository.updateGroupMessage`: returns `none` both when the
message does not exist and when the caller is not its author (the service
layer collapses the two); otherwise rewrites content/iv, stamps
`edited_at = NOW()` and returns the updated row. -/
def updateGroupMessage (db : GroupDB) (data : UpdateGroupMessageDTO) (now : Int) :
    Option (GroupDB × GroupMessage) :=
  match db.messages.find? (fun gm => gm.id == data.messageId) with
  | none => none
  | some check =>
    if check.senderId == data.userId then
      let msgs := db.messages.map (fun gm =>
        if gm.id == data.messageId then
          { gm with
            encryptedContent := data.encryptedContent
            iv := data.iv
            editedAt := some now }
        else gm)
      match msgs.find? (fun gm => gm.id == data.messageId) with
      | none => none
      | some updated => some ({ db with messages := msgs }, updated)
    else none

/-- `GroupRepository.deleteGroupMessage`: false when the message does not
exist, when the caller is not its author, or when `deleteForAll` is false
(delete-for-all is the only supported group deletion mode); otherwise
stamps the tombstone. -/
def deleteGroupMessage (db : GroupDB) (messageId userId : Int) (deleteForAll : Bool)
    (now : Int) : GroupDB × Bool :=
  match db.messages.find? (fun gm => gm.id == messageId) with
  | none => (db, false)
  | some check =>
    if check.senderId == userId then
      if deleteForAll then
        ({ db with messages := db.messages.map (fun gm =>
            if gm.id == messageId then
              { gm with
                isDeletedForAll := true
                deletedAt := some now }
            else gm) }, true)
      else (db, false)
    else (db, false)

end GroupRepository

/-- The black-box symmetric cipher's decrypt operation (an external
collaborator): `none` models a thrown `DecryptionError`. -/
abbrev Decrypt := String → String → Option String

namespace ChatService

/-- The sentinel substituted when decryption of a direct message throws. -/
def corruptedPlaceholder : String := "[Mensaje encriptado - error al desencriptar]"

/-- The `DecryptedMessage` view (`Omit<Message, 'encrypted_content' | 'iv'>`
plus plaintext `content`). -/
structure DecryptedMessage where
  id : Int
  sender_id : Int
  receiver_id : Int
  timestamp : Int
  is_read : Bool
  deleted_by_sender : Bool
  deleted_by_receiver : Bool
  content : String
  deriving Repr, DecidableEq

/-- `ChatService.decryptMessage`: decrypt, catching `DecryptionError` and
substituting the corrupted-message placeholder for this message only. -/
def decryptMessage (dec : Decrypt) (m : Message) : DecryptedMessage :=
  match dec m.encrypted_content m.iv with
  | some plain =>
    { id := m.id
      sender_id := m.sender_id
      receiver_id := m.receiver_id
      timestamp := m.timestamp
      is_read := m.is_read
      deleted_by_sender := m.deleted_by_sender
      deleted_by_receiver := m.deleted_by_receiver
      content := plain }
  | none =>
    { id := m.id
      sender_id := m.sender_id
      receiver_id := m.receiver_id
      timestamp := m.timestamp
      is_read := m.is_read
      deleted_by_sender := m.deleted_by_sender
      deleted_by_receiver := m.deleted_by_receiver
      content := corruptedPlaceholder }

/-- `ChatService.getChatHistory`: fetch the page and decrypt every message
(per-message recovery, the list operation itself never fails on a cipher error). -/
def getChatHistory (dec : Decrypt) (db : List Message)
    (userId contactId limit offset : ℚ) : Except String (List DecryptedMessage) :=
  match MessageRepository.getConversationHistory db userId contactId limit offset with
  | Except.error e => Except.error e
  | Except.ok msgs => Except.ok (msgs.map (decryptMessage dec))

/-- Modelled from the spec: `ChatService.editMessage` is invoked by the
`chat:edit-message` socket handler but its implementation is not among the
provided backend sources (only an older `ChatService` without it is).
Spec §4.5: `editDirect` re-encrypts the new content and persists it, and
"authorization failure and not-found are collapsed into one user-facing
error". The cipher runs upstream, so the model receives the re-encrypted
content. -/
def editMessage (db : List Message) (messageId userId : Int)
    (newEncryptedContent newIv : String) : Except String (List Message) :=
  match db.find? (fun m => m.id == messageId) with
  | none => Except.error "No tienes permisos para editar este mensaje o el mensaje no existe"
  | some msg =>
    if msg.sender_id == userId then
      Except.ok (db.map (fun m =>
        if m.id == messageId then
          { m with
            encrypted_content := newEncryptedContent
            iv := newIv }
        else m))
    else
      Except.error "No tienes permisos para editar este mensaje o el mensaje no existe"

end ChatService

namespace GroupService

/-- The fixed placeholder shown for a tombstoned group message. -/
def deletedPlaceholder : String := "Este mensaje fue eliminado"

/-- The sentinel substituted when decryption of a group message throws. -/
def corruptedPlaceholder : String := "[Mensaje encriptado - error al desencriptar]"

/-- The `DecryptedGroupMessage` view. -/
structure DecryptedGroupMessage where
  id : Int
  groupId : Int
  senderId : Int
  timestamp : Int
  editedAt : Option Int
  isDeletedForAll : Bool
  deletedAt : Option Int
  content : String
  deriving Repr, DecidableEq

/-- Project a `GroupMessage` to its view with the given content. -/
def viewWith (m : GroupMessage) (content : String) : DecryptedGroupMessage :=
  { id := m.id
    groupId := m.groupId
    senderId := m.senderId
    timestamp := m.timestamp
    editedAt := m.editedAt
    isDeletedForAll := m.isDeletedForAll
    deletedAt := m.deletedAt
    content := content }

/-- `GroupService.decryptGroupMessage`: a tombstoned message gets the fixed
deleted-placeholder without any decryption; otherwise decrypt, substituting
the corrupted-message placeholder on a cipher failure. -/
def decryptGroupMessage (dec : Decrypt) (m : GroupMessage) : DecryptedGroupMessage :=
  if m.isDeletedForAll then viewWith m deletedPlaceholder
  else
    match dec m.encryptedContent m.iv with
    | some plain => viewWith m plain
    | none => viewWith m corruptedPlaceholder

end GroupService

namespace SocketService

/-- One invocation of a correlation (acknowledgement) callback:
`ok` is a `{success:true, ...}` payload, `err` a `{success:false, error}` payload. -/
inductive Ack where
  | ok : Ack
  | err : String → Ack
  deriving Repr, DecidableEq

/-- `Map.prototype.set` on the `connectedUsers` registry: replace the
binding in place when the key is present, append otherwise. -/
def mapSet : List (Int × String) → Int → String → List (Int × String)
  | [], userId, socketId => [(userId, socketId)]
  | kv :: rest, userId, socketId =>
    if kv.1 == userId then (userId, socketId) :: rest
    else kv :: mapSet rest userId socketId

/-- `Map.prototype.get` on the registry. -/
def mapGet (reg : List (Int × String)) (userId : Int) : Option String :=
  (reg.find? (fun kv => kv.1 == userId)).map Prod.snd

/-- The socket-server state touched by the claims: the
`connectedUsers : Map<number, string>` registry plus the identities of the
transport-level connections that are open (the handlers never close one). -/
structure ServerState where
  connectedUsers : List (Int × String)
  openSockets : List String
  deriving Repr, DecidableEq

/-- The registry effect of the `authenticate` handler:
`this.connectedUsers.set(userId, socket.id)`. Presence persistence and the
two emits touch neither the registry nor any transport connection. -/
def authenticate (st : ServerState) (userId : Int) (socketId : String) : ServerState :=
  { st with connectedUsers := mapSet st.connectedUsers userId socketId }

/-- Recipient resolution used by every fan-out:
`this.connectedUsers.get(recipientId)`; a `none` recipient is skipped. -/
def deliveryTarget (st : ServerState) (toUserId : Int) : Option String :=
  mapGet st.connectedUsers toUserId

/-- `SocketService.getUserIdBySocketId`: reverse lookup by connection handle. -/
def getUserIdBySocketId (reg : List (Int × String)) (socketId : String) : Option Int :=
  (reg.find? (fun kv => kv.2 == socketId)).map Prod.fst

/-- The `disconnect` handler's registry effect: scan for the entry whose
stored socket id equals the disconnecting socket's id, delete that binding
and report its userId (the second component; `none` means no OFFLINE
persistence and no `user:offline` broadcast happen). -/
def disconnectStep (reg : List (Int × String)) (socketId : String) :
    List (Int × String) × Option Int :=
  match reg.find? (fun kv => kv.2 == socketId) with
  | none => (reg, none)
  | some kv => (reg.filter (fun e => !(e.1 == kv.1)), some kv.1)

/-- Control flow of the `group:send-message` handler with respect to its
correlation callback. The whole body sits in one try/catch whose catch
invokes the callback with an error payload. Inside the try: the
unauthenticated check acks an error and returns; `sendGroupMessage` is
awaited (a throw is caught); the success ack fires; then
`getGroupMembers` is awaited for the fan-out — still inside the try — so a
throw there reaches the same catch after the success ack already fired.
The two `Except` arguments inject the outcomes of those awaited service
calls; payloads and emits are irrelevant to the callback trace. -/
def groupSendMessageHandler (authUserId : Option Int)
    (sendResult : Except String GroupService.DecryptedGroupMessage)
    (membersResult : Except String (List GroupMember)) : List Ack :=
  match authUserId with
  | none => [Ack.err "No autenticado"]
  | some _ =>
    match sendResult with
    | Except.error e => [Ack.err e]
    | Except.ok _ =>
      match membersResult with
      | Except.ok _ => [Ack.ok]
      | Except.error e => [Ack.ok, Ack.err e]

/-- Control flow of the `chat:send-message` handler with respect to its
correlation callback: after the success ack only synchronous registry
lookups and emits remain, so a store/service throw can only happen before
the ack and is converted by the catch into a single error ack. -/
def chatSendMessageHandler (authUserId : Option Int)
    (sendResult : Except String ChatService.DecryptedMessage) : List Ack :=
  match authUserId with
  | none => [Ack.err "No autenticado"]
  | some _ =>
    match sendResult with
    | Except.error e => [Ack.err e]
    | Except.ok _ => [Ack.ok]

end SocketService

/-! ### Shared helper lemmas -/

/-- On a table whose key column is duplicate-free, looking a row up by its
own key finds exactly that row. -/
theorem find?_key_of_nodup {α β : Type} [BEq β] [LawfulBEq β] (f : α → β)
    (l : List α) (h : (l.map f).Nodup) (x : α) (hx : x ∈ l) :
    l.find? (fun y => f y == f x) = some x := by
  induction l with
  | nil => exact absurd hx (List.not_mem_nil x)
  | cons a t ih =>
    rcases List.mem_cons.mp hx with rfl | hxt
    · exact List.find?_cons_of_pos t (by simp)
    · have hne : f a ≠ f x := by
        intro hEq
        exact (List.nodup_cons.mp h).1 (hEq ▸ List.mem_map_of_mem f hxt)
      rw [List.find?_cons_of_neg t (by simp [hne])]
      exact ih (List.nodup_cons.mp h).2 hxt

/-- Rows of a table with duplicate-free keys are determined by their key. -/
theorem eq_of_mem_of_key_eq {α β : Type} (f : α → β) {l : List α}
    (h : (l.map f).Nodup) {x y : α} (hx : x ∈ l) (hy : y ∈ l) (hxy : f x = f y) :
    x = y :=
  List.inj_on_of_nodup_map h hx hy hxy

theorem setSenderFlag_id (mid : Int) (m : Message) :
    (MessageRepository.setSenderFlag mid m).id = m.id := by
  unfold MessageRepository.setSenderFlag
  split <;> rfl

theorem setReceiverFlag_id (mid : Int) (m : Message) :
    (MessageRepository.setReceiverFlag mid m).id = m.id := by
  unfold MessageRepository.setReceiverFlag
  split <;> rfl

theorem map_id_setSenderFlag (db : List Message) (mid : Int) :
    (db.map (MessageRepository.setSenderFlag mid)).map Message.id = db.map Message.id := by
  rw [List.map_map]
  exact List.map_congr_left fun m _ => setSenderFlag_id mid m

theorem map_id_setReceiverFlag (db : List Message) (mid : Int) :
    (db.map (MessageRepository.setReceiverFlag mid)).map Message.id = db.map Message.id := by
  rw [List.map_map]
  exact List.map_congr_left fun m _ => setReceiverFlag_id mid m

/-- Decomposition of a successful history fetch: the parameters were valid
and the result is the requested page of the ascending sort of the filtered
table. -/
theorem history_ok_iff (db : List Message) (u c L O : ℚ) (msgs : List Message) :
    MessageRepository.getConversationHistory db u c L O = Except.ok msgs ↔
      MessageRepository.validHistoryParams u c L O = true ∧
      msgs = ((List.insertionSort tsLe
          (db.filter (MessageRepository.historyPred u.num c.num))).drop
            O.num.toNat).take L.num.toNat := by
  unfold MessageRepository.getConversationHistory
  split
  · rename_i hvalid
    simp only [Except.ok.injEq, hvalid, true_and]
    exact ⟨fun h => h.symm, fun h => h.symm⟩
  · rename_i hvalid
    simp only [Bool.not_eq_true] at hvalid
    constructor
    · intro h; exact absurd h (by simp)
    · intro h; rw [hvalid] at h; exact absurd h.1 (by simp)

/-- Everything a successful history fetch returns comes from the table and
satisfies the visibility predicate of the WHERE clause. -/
theorem mem_of_history_ok {db : List Message} {u c L O : ℚ} {msgs : List Message}
    (h : MessageRepository.getConversationHistory db u c L O = Except.ok msgs)
    {x : Message} (hx : x ∈ msgs) :
    x ∈ db ∧ MessageRepository.historyPred u.num c.num x = true := by
  obtain ⟨-, rfl⟩ := (history_ok_iff db u c L O msgs).mp h
  have h1 := (List.drop_subset _ _) ((List.take_subset _ _) hx)
  have h2 := (List.mem_insertionSort tsLe).mp h1
  exact List.mem_filter.mp h2

/-- A successful history fetch is sorted chronologically ascending. -/
theorem sorted_of_history_ok {db : List Message} {u c L O : ℚ} {msgs : List Message}
    (h : MessageRepository.getConversationHistory db u c L O = Except.ok msgs) :
    List.Sorted tsLe msgs := by
  obtain ⟨-, rfl⟩ := (history_ok_iff db u c L O msgs).mp h
  exact List.Pairwise.sublist
    ((List.take_sublist _ _).trans (List.drop_sublist _ _))
    (List.sorted_insertionSort tsLe _)

/-- With offset 0 and a limit as large as the table, a visible row is in
the fetched page. -/
theorem mem_history_full {db : List Message} {x : Message} (hx : x ∈ db)
    {u c : Int} (hu : 0 < u) (hc : 0 < c)
    (hpred : MessageRepository.historyPred u c x = true) :
    ∃ msgs, MessageRepository.getConversationHistory db (u : ℚ) (c : ℚ)
        ((db.length : ℚ)) 0 = Except.ok msgs ∧ x ∈ msgs := by
  have hlen : 0 < db.length := List.length_pos.mpr (by rintro rfl; exact (List.not_mem_nil x) hx)
  have hval : MessageRepository.validHistoryParams (u : ℚ) (c : ℚ) ((db.length : ℚ)) 0 = true := by
    have h1 : (0 : ℚ) < (u : ℚ) := by exact_mod_cast hu
    have h2 : (0 : ℚ) < (c : ℚ) := by exact_mod_cast hc
    have h3 : (0 : ℚ) < ((db.length : ℚ)) := by exact_mod_cast hlen
    simp [MessageRepository.validHistoryParams, h1, h2, h3]
  refine ⟨_, (history_ok_iff db (u : ℚ) (c : ℚ) ((db.length : ℚ)) 0 _).mpr ⟨hval, rfl⟩, ?_⟩
  have hnum : ((db.length : ℚ)).num.toNat = db.length := by
    rw [Rat.num_natCast, Int.toNat_natCast]
  have hzero : ((0 : ℚ)).num.toNat = 0 := rfl
  rw [hnum, hzero, List.drop_zero, Rat.num_intCast, Rat.num_intCast]
  have hxrows : x ∈ db.filter (MessageRepository.historyPred u c) :=
    List.mem_filter.mpr ⟨hx, hpred⟩
  have hlen2 : (List.insertionSort tsLe (db.filter (MessageRepository.historyPred u c))).length ≤
      db.length := by
    rw [List.length_insertionSort]
    exact List.length_filter_le _ _
  rw [List.take_of_length_le hlen2]
  exact (List.mem_insertionSort tsLe).mpr hxrows

/-- Sender-side soft delete when the receiver has not deleted: exactly the
sender flag of the target row gets set and nothing is purged. -/
theorem deleteMessage_sender_eq {db : List Message} {m : Message}
    (hm : m ∈ db) (hnd : (db.map Message.id).Nodup)
    (hdbr : m.deleted_by_receiver = false) :
    MessageRepository.deleteMessage db m.id m.sender_id =
      Except.ok (db.map (MessageRepository.setSenderFlag m.id)) := by
  have hfind : db.find? (fun y => y.id == m.id) = some m :=
    find?_key_of_nodup Message.id db hnd m hm
  unfold MessageRepository.deleteMessage
  rw [hfind]
  dsimp only
  simp only [beq_self_eq_true, if_true]
  have hnd1 : ((db.map (MessageRepository.setSenderFlag m.id)).map Message.id).Nodup := by
    rw [map_id_setSenderFlag]; exact hnd
  have hmem1 : MessageRepository.setSenderFlag m.id m ∈
      db.map (MessageRepository.setSenderFlag m.id) := List.mem_map_of_mem _ hm
  have hfind1 := find?_key_of_nodup Message.id _ hnd1 _ hmem1
  simp only [setSenderFlag_id] at hfind1
  rw [hfind1]
  dsimp only
  have hupd : MessageRepository.setSenderFlag m.id m = { m with deleted_by_sender := true } := by
    unfold MessageRepository.setSenderFlag; simp
  rw [hupd]
  simp [hdbr]

/-- Sender-side soft delete when the receiver flag is already set: the row
is physically purged right after the flag update. -/
theorem deleteMessage_sender_purge {db : List Message} {m : Message}
    (hm : m ∈ db) (hnd : (db.map Message.id).Nodup)
    (hdbr : m.deleted_by_receiver = true) :
    MessageRepository.deleteMessage db m.id m.sender_id =
      Except.ok ((db.map (MessageRepository.setSenderFlag m.id)).filter
        (fun x => !(x.id == m.id))) := by
  have hfind : db.find? (fun y => y.id == m.id) = some m :=
    find?_key_of_nodup Message.id db hnd m hm
  unfold MessageRepository.deleteMessage
  rw [hfind]
  dsimp only
  simp only [beq_self_eq_true, if_true]
  have hnd1 : ((db.map (MessageRepository.setSenderFlag m.id)).map Message.id).Nodup := by
    rw [map_id_setSenderFlag]; exact hnd
  have hmem1 : MessageRepository.setSenderFlag m.id m ∈
      db.map (MessageRepository.setSenderFlag m.id) := List.mem_map_of_mem _ hm
  have hfind1 := find?_key_of_nodup Message.id _ hnd1 _ hmem1
  simp only [setSenderFlag_id] at hfind1
  rw [hfind1]
  dsimp only
  have hupd : MessageRepository.setSenderFlag m.id m = { m with deleted_by_sender := true } := by
    unfold MessageRepository.setSenderFlag; simp
  rw [hupd]
  simp [hdbr]

/-- Receiver-side soft delete when the sender has not deleted: exactly the
receiver flag of the target row gets set and nothing is purged. -/
theorem deleteMessage_receiver_eq {db : List Message} {m : Message}
    (hm : m ∈ db) (hnd : (db.map Message.id).Nodup)
    (hne : m.sender_id ≠ m.receiver_id) (hdbs : m.deleted_by_sender = false) :
    MessageRepository.deleteMessage db m.id m.receiver_id =
      Except.ok (db.map (MessageRepository.setReceiverFlag m.id)) := by
  have hfind : db.find? (fun y => y.id == m.id) = some m :=
    find?_key_of_nodup Message.id db hnd m hm
  unfold MessageRepository.deleteMessage
  rw [hfind]
  dsimp only
  rw [if_neg (by simp [hne]), if_pos (by simp)]
  have hnd1 : ((db.map (MessageRepository.setReceiverFlag m.id)).map Message.id).Nodup := by
    rw [map_id_setReceiverFlag]; exact hnd
  have hmem1 : MessageRepository.setReceiverFlag m.id m ∈
      db.map (MessageRepository.setReceiverFlag m.id) := List.mem_map_of_mem _ hm
  have hfind1 := find?_key_of_nodup Message.id _ hnd1 _ hmem1
  simp only [setReceiverFlag_id] at hfind1
  rw [hfind1]
  dsimp only
  have hupd : MessageRepository.setReceiverFlag m.id m =
      { m with deleted_by_receiver := true } := by
    unfold MessageRepository.setReceiverFlag; simp
  rw [hupd]
  simp [hdbs]

/-- Receiver-side soft delete when the sender flag is already set: the row
is physically purged right after the flag update. -/
theorem deleteMessage_receiver_purge {db : List Message} {m : Message}
    (hm : m ∈ db) (hnd : (db.map Message.id).Nodup)
    (hne : m.sender_id ≠ m.receiver_id) (hdbs : m.deleted_by_sender = true) :
    MessageRepository.deleteMessage db m.id m.receiver_id =
      Except.ok ((db.map (MessageRepository.setReceiverFlag m.id)).filter
        (fun x => !(x.id == m.id))) := by
  have hfind : db.find? (fun y => y.id == m.id) = some m :=
    find?_key_of_nodup Message.id db hnd m hm
  unfold MessageRepository.deleteMessage
  rw [hfind]
  dsimp only
  rw [if_neg (by simp [hne]), if_pos (by simp)]
  have hnd1 : ((db.map (MessageRepository.setReceiverFlag m.id)).map Message.id).Nodup := by
    rw [map_id_setReceiverFlag]; exact hnd
  have hmem1 : MessageRepository.setReceiverFlag m.id m ∈
      db.map (MessageRepository.setReceiverFlag m.id) := List.mem_map_of_mem _ hm
  have hfind1 := find?_key_of_nodup Message.id _ hnd1 _ hmem1
  simp only [setReceiverFlag_id] at hfind1
  rw [hfind1]
  dsimp only
  have hupd : MessageRepository.setReceiverFlag m.id m =
      { m with deleted_by_receiver := true } := by
    unfold MessageRepository.setReceiverFlag; simp
  rw [hupd]
  simp [hdbs]

/-- Whenever a message with the requested id exists, `deleteMessage` never
fails, whoever the caller is. -/
theorem deleteMessage_isOk {db : List Message} {mid uid : Int}
    (hfound : ∃ x ∈ db, (x.id == mid) = true) :
    ∃ db2, MessageRepository.deleteMessage db mid uid = Except.ok db2 := by
  obtain ⟨y, hy⟩ : ∃ y, db.find? (fun x => x.id == mid) = some y :=
    Option.isSome_iff_exists.mp ((List.find?_isSome).mpr hfound)
  unfold MessageRepository.deleteMessage
  rw [hy]
  dsimp only
  split
  · exact ⟨_, rfl⟩
  · split
    · exact ⟨_, rfl⟩
    · exact ⟨_, rfl⟩

/-- One increment on a canonically stored pair row: the receiver's counter
goes up by one, the sender's counter and the pair columns are untouched. -/
theorem incRow_canonical {a b : Int} (hab : a ≠ b) {c : Conversation}
    (h1 : c.user1_id = min a b) (h2 : c.user2_id = max a b) :
    ConversationRepository.unreadOf (ConversationRepository.incRow b a c) b =
        ConversationRepository.unreadOf c b + 1 ∧
      ConversationRepository.unreadOf (ConversationRepository.incRow b a c) a =
        ConversationRepository.unreadOf c a ∧
      (ConversationRepository.incRow b a c).user1_id = c.user1_id ∧
      (ConversationRepository.incRow b a c).user2_id = c.user2_id := by
  rcases lt_or_gt_of_ne hab with h | h
  · have hmin : min a b = a := min_eq_left h.le
    have hmax : max a b = b := max_eq_right h.le
    have hba : ¬ b < a := not_lt.mpr h.le
    have hbna : b ≠ a := (ne_of_gt h)
    simp [ConversationRepository.incRow, ConversationRepository.pairMatches,
      ConversationRepository.unreadOf, h1, h2, hmin, hmax, hba, hbna, hab]
  · have hmin : min a b = b := min_eq_right h.le
    have hmax : max a b = a := max_eq_left h.le
    have hba : b < a := h
    simp [ConversationRepository.incRow, ConversationRepository.pairMatches,
      ConversationRepository.unreadOf, h1, h2, hmin, hmax, hba, hab]

/-- One reset on a canonically stored pair row: the caller's counter is
zeroed, the contact's counter and the pair columns are untouched. -/
theorem resetRow_canonical {a b : Int} (hab : a ≠ b) {c : Conversation}
    (h1 : c.user1_id = min a b) (h2 : c.user2_id = max a b) :
    ConversationRepository.unreadOf (ConversationRepository.resetRow a b c) a = 0 ∧
      ConversationRepository.unreadOf (ConversationRepository.resetRow a b c) b =
        ConversationRepository.unreadOf c b := by
  rcases lt_or_gt_of_ne hab with h | h
  · have hmin : min a b = a := min_eq_left h.le
    have hmax : max a b = b := max_eq_right h.le
    have hbna : b ≠ a := (ne_of_gt h)
    simp [ConversationRepository.resetRow, ConversationRepository.pairMatches,
      ConversationRepository.unreadOf, h1, h2, hmin, hmax, h, hbna, hab]
  · have hmin : min a b = b := min_eq_right h.le
    have hmax : max a b = a := max_eq_left h.le
    have hab2 : ¬ a < b := not_lt.mpr h.le
    simp [ConversationRepository.resetRow, ConversationRepository.pairMatches,
      ConversationRepository.unreadOf, h1, h2, hmin, hmax, hab2, hab]

/-- Rows whose pair does not match are untouched by either counter update. -/
theorem row_nonmatching {a b : Int} {c : Conversation}
    (hno : ConversationRepository.pairMatches (min a b) (max a b) c = false) :
    ConversationRepository.incRow b a c = c ∧
      ConversationRepository.resetRow a b c = c := by
  rcases le_or_lt a b with h | h
  · have hmin : min a b = a := min_eq_left h
    have hmax : max a b = b := max_eq_right h
    have hba : ¬ b < a := not_lt.mpr h
    constructor
    · simp only [ConversationRepository.incRow, if_neg hba]
      rw [hmin, hmax] at hno
      simp [hno, hba]
    · simp only [ConversationRepository.resetRow]
      rw [hmin, hmax] at hno
      rcases lt_or_eq_of_le h with h2 | h2
      · simp [hno, h2]
      · subst h2
        simp [hno]
  · have hmin : min a b = b := min_eq_right h.le
    have hmax : max a b = a := max_eq_left h.le
    rw [hmin, hmax] at hno
    have hanb : ¬ a < b := not_lt.mpr h.le
    constructor
    · simp [ConversationRepository.incRow, hno, h]
    · simp [ConversationRepository.resetRow, hno, hanb]

/-- Iterating the increment on a canonically stored row raises the
receiver's counter by exactly the iteration count and leaves the sender's
counter alone. -/
theorem incRow_iterate {a b : Int} (hab : a ≠ b) {c : Conversation}
    (h1 : c.user1_id = min a b) (h2 : c.user2_id = max a b) (N : Nat) :
    ConversationRepository.unreadOf ((ConversationRepository.incRow b a)^[N] c) b =
        ConversationRepository.unreadOf c b + N ∧
      ConversationRepository.unreadOf ((ConversationRepository.incRow b a)^[N] c) a =
        ConversationRepository.unreadOf c a ∧
      ((ConversationRepository.incRow b a)^[N] c).user1_id = c.user1_id ∧
      ((ConversationRepository.incRow b a)^[N] c).user2_id = c.user2_id := by
  induction N with
  | zero => simp
  | succ n ih =>
    rw [Function.iterate_succ_apply']
    obtain ⟨ihb, iha, ih1, ih2⟩ := ih
    have hstep := incRow_canonical hab (ih1.trans h1) (ih2.trans h2)
    refine ⟨?_, ?_, ?_, ?_⟩
    · rw [hstep.1, ihb]; ring
    · rw [hstep.2.1, iha]
    · rw [hstep.2.2.1, ih1]
    · rw [hstep.2.2.2, ih2]

/-- Unfolding of `mapSet` on a cons cell. -/
theorem mapSet_cons (kv : Int × String) (rest : List (Int × String)) (k : Int) (v : String) :
    SocketService.mapSet (kv :: rest) k v =
      if kv.1 == k then (k, v) :: rest else kv :: SocketService.mapSet rest k v := rfl

/-- `Map.set` then `Map.get` on the same key yields the new value. -/
theorem mapGet_mapSet_self (reg : List (Int × String)) (k : Int) (v : String) :
    SocketService.mapGet (SocketService.mapSet reg k v) k = some v := by
  induction reg with
  | nil =>
    unfold SocketService.mapGet
    rw [show SocketService.mapSet [] k v = [(k, v)] from rfl]
    rw [List.find?_cons_of_pos _ (by simp)]
    rfl
  | cons kv rest ih =>
    rw [mapSet_cons]
    by_cases hk : kv.1 = k
    · rw [if_pos (by simp [hk])]
      unfold SocketService.mapGet
      rw [List.find?_cons_of_pos _ (by simp)]
      rfl
    · rw [if_neg (by simp [hk])]
      unfold SocketService.mapGet
      rw [List.find?_cons_of_neg _ (by simp [hk])]
      exact ih

/-- `Map.set` leaves every other key's lookup unchanged. -/
theorem mapGet_mapSet_ne (reg : List (Int × String)) (k : Int) (v : String)
    (k2 : Int) (hk2 : k2 ≠ k) :
    SocketService.mapGet (SocketService.mapSet reg k v) k2 =
      SocketService.mapGet reg k2 := by
  induction reg with
  | nil =>
    unfold SocketService.mapGet
    rw [show SocketService.mapSet [] k v = [(k, v)] from rfl]
    rw [List.find?_cons_of_neg _ (by simp [Ne.symm hk2])]
  | cons kv rest ih =>
    rw [mapSet_cons]
    by_cases hk : kv.1 = k
    · rw [if_pos (by simp [hk])]
      unfold SocketService.mapGet
      rw [List.find?_cons_of_neg _ (by simp [Ne.symm hk2]),
        List.find?_cons_of_neg _ (by simp [hk, Ne.symm hk2])]
    · rw [if_neg (by simp [hk])]
      unfold SocketService.mapGet
      by_cases hkv2 : kv.1 = k2
      · rw [List.find?_cons_of_pos _ (by simp [hkv2]),
          List.find?_cons_of_pos _ (by simp [hkv2])]
      · rw [List.find?_cons_of_neg _ (by simp [hkv2]),
          List.find?_cons_of_neg _ (by simp [hkv2])]
        exact ih

/-- Every key present after a `Map.set` was present before or is the set key. -/
theorem mapSet_keys_subset (reg : List (Int × String)) (k : Int) (v : String) :
    ∀ x ∈ (SocketService.mapSet reg k v).map Prod.fst,
      x ∈ reg.map Prod.fst ∨ x = k := by
  induction reg with
  | nil =>
    intro x hx
    rw [show SocketService.mapSet [] k v = [(k, v)] from rfl] at hx
    simp at hx
    exact Or.inr hx
  | cons kv rest ih =>
    intro x hx
    rw [mapSet_cons] at hx
    by_cases hk : kv.1 = k
    · rw [if_pos (by simp [hk])] at hx
      rw [List.map_cons] at hx
      rcases List.mem_cons.mp hx with rfl | hx2
      · exact Or.inr rfl
      · exact Or.inl (List.mem_cons.mpr (Or.inr hx2))
    · rw [if_neg (by simp [hk])] at hx
      rw [List.map_cons] at hx
      rcases List.mem_cons.mp hx with rfl | hx2
      · exact Or.inl (List.mem_cons.mpr (Or.inl rfl))
      · rcases ih x hx2 with h | h
        · exact Or.inl (List.mem_cons.mpr (Or.inr h))
        · exact Or.inr h

/-- `Map.set` preserves the at-most-one-binding-per-user invariant. -/
theorem mapSet_keys_nodup {reg : List (Int × String)} (k : Int) (v : String)
    (h : (reg.map Prod.fst).Nodup) :
    ((SocketService.mapSet reg k v).map Prod.fst).Nodup := by
  induction reg with
  | nil =>
    rw [show SocketService.mapSet [] k v = [(k, v)] from rfl]
    simp
  | cons kv rest ih =>
    rw [List.map_cons, List.nodup_cons] at h
    rw [mapSet_cons]
    by_cases hk : kv.1 = k
    · rw [if_pos (by simp [hk])]
      rw [List.map_cons]
      exact List.nodup_cons.mpr ⟨by rw [← hk]; exact h.1, h.2⟩
    · rw [if_neg (by simp [hk])]
      rw [List.map_cons]
      refine List.nodup_cons.mpr ⟨?_, ih h.2⟩
      intro hmem
      rcases mapSet_keys_subset rest k v kv.1 hmem with h2 | h2
      · exact h.1 h2
      · exact hk h2

/-! ### Claim theorems -/

/-- Claim C1 (code bug): the claim demands that one invocation of a handler
carrying a correlation callback invokes that callback exactly once — with a
success or an error payload, never both — even when an underlying store or
service call throws at any point during the handler. In the
`group:send-message` handler the success ack fires before the awaited
`getGroupMembers` fan-out lookup, which still sits inside the same
try/catch; when that service call throws, the catch invokes the correlation
callback a second time, so one handler invocation produces two callback
invocations, first a success payload and then an error payload. The same
shape recurs in `group:edit-message` and `group:delete-message`. -/
theorem C1_group_send_double_ack :
    SocketService.groupSendMessageHandler (some 1)
        (Except.ok (GroupService.viewWith
          ⟨1, 1, 1, "cipher", "iv", 0, none, false, none⟩ "hola"))
        (Except.error "getGroupMembers failed") =
      [SocketService.Ack.ok, SocketService.Ack.err "getGroupMembers failed"] ∧
    (SocketService.groupSendMessageHandler (some 1)
        (Except.ok (GroupService.viewWith
          ⟨1, 1, 1, "cipher", "iv", 0, none, false, none⟩ "hola"))
        (Except.error "getGroupMembers failed")).length = 2 ∧
    (∀ (authUserId : Option Int) (sendResult : Except String ChatService.DecryptedMessage),
      (SocketService.chatSendMessageHandler authUserId sendResult).length = 1) := by
  refine ⟨rfl, rfl, ?_⟩
  intro authUserId sendResult
  cases authUserId with
  | none => rfl
  | some uid => cases sendResult with
    | error e => rfl
    | ok v => rfl

/-- Claim C6: decryption-for-display is total and per-message isolated: a
tombstoned group message yields the fixed deleted-placeholder without the
cipher being consulted (the result does not depend on the cipher); a cipher
failure on a live message yields the corrupted-placeholder; the two
placeholders are textually different; and decrypting a list of messages
never fails and degrades exactly the messages whose ciphertext/iv pair the
cipher rejects, returning every other message's plaintext. -/
theorem C6_decryption_isolation :
    (∀ (dec dec2 : Decrypt) (gm : GroupMessage), gm.isDeletedForAll = true →
      GroupService.decryptGroupMessage dec gm = GroupService.decryptGroupMessage dec2 gm ∧
      (GroupService.decryptGroupMessage dec gm).content = GroupService.deletedPlaceholder) ∧
    (∀ (dec : Decrypt) (gm : GroupMessage), gm.isDeletedForAll = false →
      dec gm.encryptedContent gm.iv = none →
      (GroupService.decryptGroupMessage dec gm).content = GroupService.corruptedPlaceholder) ∧
    GroupService.deletedPlaceholder ≠ GroupService.corruptedPlaceholder ∧
    (∀ (dec : Decrypt) (msgs : List Message),
      (msgs.map (ChatService.decryptMessage dec)).length = msgs.length ∧
      ∀ m ∈ msgs,
        (∀ plain, dec m.encrypted_content m.iv = some plain →
          (ChatService.decryptMessage dec m).content = plain) ∧
        (dec m.encrypted_content m.iv = none →
          (ChatService.decryptMessage dec m).content = ChatService.corruptedPlaceholder)) := by
  refine ⟨?_, ?_, ?_, ?_⟩
  · intro dec dec2 gm hdel
    constructor
    · unfold GroupService.decryptGroupMessage
      rw [if_pos hdel, if_pos hdel]
    · unfold GroupService.decryptGroupMessage
      rw [if_pos hdel]
      rfl
  · intro dec gm hdel hfail
    unfold GroupService.decryptGroupMessage
    rw [if_neg (by simp [hdel]), hfail]
    rfl
  · decide
  · intro dec msgs
    refine ⟨List.length_map msgs _, ?_⟩
    intro m hm
    constructor
    · intro plain hp
      unfold ChatService.decryptMessage
      rw [hp]
    · intro hn
      unfold ChatService.decryptMessage
      rw [hn]

/-- Witness for C6 at concrete inputs: a tombstoned message shows the
deleted-placeholder, a live message with a rejected ciphertext shows the
corrupted-placeholder, and a live message with accepted ciphertext shows
its plaintext. -/
theorem C6_decryption_isolation_witness :
    (GroupService.decryptGroupMessage (fun _ _ => none)
        ⟨1, 1, 1, "c", "i", 0, none, true, some 5⟩).content =
      GroupService.deletedPlaceholder ∧
    (GroupService.decryptGroupMessage (fun _ _ => none)
        ⟨2, 1, 1, "c", "i", 0, none, false, none⟩).content =
      GroupService.corruptedPlaceholder ∧
    (ChatService.decryptMessage (fun s _ => if s == "good" then some "plain" else none)
        ⟨1, 1, 2, "good", "i", 0, false, false, false⟩).content = "plain" := by
  refine ⟨?_, ?_, ?_⟩
  · exact (C6_decryption_isolation.1 (fun _ _ => none) (fun _ _ => none)
      ⟨1, 1, 1, "c", "i", 0, none, true, some 5⟩ rfl).2
  · exact C6_decryption_isolation.2.1 (fun _ _ => none)
      ⟨2, 1, 1, "c", "i", 0, none, false, none⟩ rfl rfl
  · exact ((C6_decryption_isolation.2.2.2 (fun s _ => if s == "good" then some "plain" else none)
      [⟨1, 1, 2, "good", "i", 0, false, false, false⟩]).2
      ⟨1, 1, 2, "good", "i", 0, false, false, false⟩ (by simp)).1 "plain" (by rfl)

/-- Claim C7: createGroup is atomic — the group row and the admin's own
membership row are inserted both-or-neither: if either INSERT fails, the
transaction rolls back and the persistent state is exactly the prior state
with neither row; on success the created group is present and its admin is
an active member of it. -/
theorem C7_createGroup_atomicity (db : GroupDB) (data : GroupRepository.CreateGroupDTO)
    (newGroupId newMemberRowId now : Int) (gOk mOk : Bool) :
    (gOk = false ∨ mOk = false →
      (GroupRepository.createGroup db data newGroupId newMemberRowId now gOk mOk).1 = db ∧
      ∃ e, (GroupRepository.createGroup db data newGroupId newMemberRowId now gOk mOk).2 =
        Except.error e) ∧
    (gOk = true → mOk = true →
      ∃ g, (GroupRepository.createGroup db data newGroupId newMemberRowId now gOk mOk).2 =
          Except.ok g ∧
        g.id = newGroupId ∧ g.adminUserId = data.adminUserId ∧
        g ∈ (GroupRepository.createGroup db data newGroupId newMemberRowId now gOk mOk).1.groups ∧
        GroupRepository.isActiveMember
          (GroupRepository.createGroup db data newGroupId newMemberRowId now gOk mOk).1
          newGroupId data.adminUserId = true) := by
  constructor
  · intro hfail
    cases gOk
    · exact ⟨rfl, ⟨_, rfl⟩⟩
    · cases mOk
      · exact ⟨rfl, ⟨_, rfl⟩⟩
      · rcases hfail with h | h <;> exact absurd h (by simp)
  · intro hg hm
    subst hg
    subst hm
    refine ⟨_, rfl, rfl, rfl, ?_, ?_⟩
    · simp [GroupRepository.createGroup]
    · simp [GroupRepository.createGroup, GroupRepository.isActiveMember,
        GroupRepository.activeMemberPred]

/-- Witness for C7: a failing member INSERT leaves the empty store
untouched, and a fully successful creation leaves the admin an active
member of the new group. -/
theorem C7_createGroup_atomicity_witness :
    (GroupRepository.createGroup ⟨[], [], []⟩ ⟨"Team", none, none, 7⟩ 1 1 0 true false).1 =
      (⟨[], [], []⟩ : GroupDB) ∧
    GroupRepository.isActiveMember
      (GroupRepository.createGroup ⟨[], [], []⟩ ⟨"Team", none, none, 7⟩ 1 1 0 true true).1
      1 7 = true := by
  constructor
  · exact ((C7_createGroup_atomicity ⟨[], [], []⟩ ⟨"Team", none, none, 7⟩ 1 1 0 true false).1
      (Or.inr rfl)).1
  · obtain ⟨g, -, -, -, -, hact⟩ :=
      (C7_createGroup_atomicity ⟨[], [], []⟩ ⟨"Team", none, none, 7⟩ 1 1 0 true true).2 rfl rfl
    exact hact

/-- Claim C8: direct-message history validates its pagination arguments
before querying — any non-integer or non-positive limit, or non-integer or
negative offset, makes the operation fail with the invalid-argument error
instead of executing the query — and every successful result is ordered
chronologically ascending by timestamp. -/
theorem C8_history_validation_and_ordering (db : List Message) (u c L O : ℚ) :
    ((¬ L.den = 1 ∨ L ≤ 0 ∨ ¬ O.den = 1 ∨ O < 0) →
      MessageRepository.getConversationHistory db u c L O =
        Except.error "Parámetros inválidos para getConversationHistory") ∧
    (∀ msgs, MessageRepository.getConversationHistory db u c L O = Except.ok msgs →
      List.Sorted tsLe msgs) := by
  constructor
  · intro hbad
    unfold MessageRepository.getConversationHistory
    rw [if_neg ?hv]
    case hv =>
      intro hval
      unfold MessageRepository.validHistoryParams at hval
      simp only [Bool.and_eq_true, decide_eq_true_eq] at hval
      obtain ⟨⟨⟨⟨⟨⟨⟨-, -⟩, h3⟩, h4⟩, -⟩, -⟩, h7⟩, h8⟩ := hval
      rcases hbad with h | h | h | h
      · exact h h3
      · exact absurd h7 (not_lt.mpr h)
      · exact h h4
      · exact absurd h8 (not_le.mpr h)
  · intro msgs h
    exact sorted_of_history_ok h

/-- Witness for C8: a zero limit is rejected with the invalid-argument
error, and a successful two-message fetch comes back ascending by timestamp. -/
theorem C8_history_validation_and_ordering_witness :
    MessageRepository.getConversationHistory [] 1 2 0 0 =
      Except.error "Parámetros inválidos para getConversationHistory" ∧
    List.Sorted tsLe
      [⟨2, 2, 1, "e2", "i2", 5, false, false, false⟩,
       ⟨1, 1, 2, "e1", "i1", 10, false, false, false⟩] := by
  constructor
  · exact (C8_history_validation_and_ordering [] 1 2 0 0).1 (Or.inr (Or.inl (le_refl 0)))
  · exact (C8_history_validation_and_ordering
      [⟨1, 1, 2, "e1", "i1", 10, false, false, false⟩,
       ⟨2, 2, 1, "e2", "i2", 5, false, false, false⟩] 2 1 50 0).2
      [⟨2, 2, 1, "e2", "i2", 5, false, false, false⟩,
       ⟨1, 1, 2, "e1", "i1", 10, false, false, false⟩] rfl

/-- Claim C9: the registry maps each userId to at most one live connection:
authenticating a second connection for an already-bound userId replaces the
mapping (last-authenticate-wins) without touching any other binding and
without closing the superseded connection (the set of open transport
connections is unchanged), subsequent deliveries to that userId resolve
only to the most recently bound connection, and the one-binding-per-user
invariant is preserved. -/
theorem C9_last_authenticate_wins (st : SocketService.ServerState) (u : Int) (s1 s2 : String) :
    SocketService.mapGet
        (SocketService.authenticate (SocketService.authenticate st u s1) u s2).connectedUsers
        u = some s2 ∧
    (∀ k, k ≠ u →
      SocketService.mapGet
          (SocketService.authenticate (SocketService.authenticate st u s1) u s2).connectedUsers
          k =
        SocketService.mapGet (SocketService.authenticate st u s1).connectedUsers k) ∧
    (SocketService.authenticate (SocketService.authenticate st u s1) u s2).openSockets =
      (SocketService.authenticate st u s1).openSockets ∧
    SocketService.deliveryTarget
        (SocketService.authenticate (SocketService.authenticate st u s1) u s2) u = some s2 ∧
    ((st.connectedUsers.map Prod.fst).Nodup →
      ((SocketService.authenticate
          (SocketService.authenticate st u s1) u s2).connectedUsers.map Prod.fst).Nodup) := by
  refine ⟨?_, ?_, rfl, ?_, ?_⟩
  · exact mapGet_mapSet_self _ u s2
  · intro k hk
    exact mapGet_mapSet_ne _ u s2 k hk
  · exact mapGet_mapSet_self _ u s2
  · intro h
    exact mapSet_keys_nodup u s2 (mapSet_keys_nodup u s1 h)

/-- Witness for C9: user 7 authenticates socket "a" then socket "b"; the
registry resolves to "b" and user 3's binding is untouched. -/
theorem C9_last_authenticate_wins_witness :
    SocketService.mapGet
        (SocketService.authenticate
          (SocketService.authenticate ⟨[(3, "z")], ["z", "a", "b"]⟩ 7 "a") 7 "b").connectedUsers
        7 = some "b" ∧
    SocketService.deliveryTarget
        (SocketService.authenticate
          (SocketService.authenticate ⟨[(3, "z")], ["z", "a", "b"]⟩ 7 "a") 7 "b") 7 =
      some "b" ∧
    SocketService.mapGet
        (SocketService.authenticate
          (SocketService.authenticate ⟨[(3, "z")], ["z", "a", "b"]⟩ 7 "a") 7 "b").connectedUsers
        3 =
      SocketService.mapGet
        (SocketService.authenticate ⟨[(3, "z")], ["z", "a", "b"]⟩ 7 "a").connectedUsers 3 := by
  refine ⟨?_, ?_, ?_⟩
  · exact (C9_last_authenticate_wins ⟨[(3, "z")], ["z", "a", "b"]⟩ 7 "a" "b").1
  · exact (C9_last_authenticate_wins ⟨[(3, "z")], ["z", "a", "b"]⟩ 7 "a" "b").2.2.2.1
  · exact (C9_last_authenticate_wins ⟨[(3, "z")], ["z", "a", "b"]⟩ 7 "a" "b").2.1 3 (by decide)

/-- Claim C10: disconnect cleanup is keyed by connection-handle identity,
not by userId alone: the handler removes a binding only when the stored
socket id equals the disconnecting socket's id; a disconnect of a socket id
that no longer backs any binding — such as a late disconnect from a
superseded connection — leaves the registry untouched and reports no user
to mark OFFLINE or broadcast about; and whenever a user is reported, that
user's stored binding carried exactly the disconnecting socket id. -/
theorem C10_disconnect_handle_identity (reg : List (Int × String)) (sid : String)
    (hnd : (reg.map Prod.fst).Nodup) :
    ((∀ kv ∈ reg, kv.2 ≠ sid) →
      SocketService.disconnectStep reg sid = (reg, none)) ∧
    (∀ kv ∈ reg, kv ∉ (SocketService.disconnectStep reg sid).1 → kv.2 = sid) ∧
    (∀ u, (SocketService.disconnectStep reg sid).2 = some u →
      ∃ kv ∈ reg, kv.1 = u ∧ kv.2 = sid) := by
  refine ⟨?_, ?_, ?_⟩
  · intro hall
    unfold SocketService.disconnectStep
    rw [List.find?_eq_none.mpr (by intro kv hkv; simp [hall kv hkv])]
  · intro kv hkv hnotin
    unfold SocketService.disconnectStep at hnotin
    cases hfind : reg.find? (fun e => e.2 == sid) with
    | none =>
      rw [hfind] at hnotin
      exact absurd hkv hnotin
    | some kv0 =>
      rw [hfind] at hnotin
      dsimp only at hnotin
      have hkey : kv.1 = kv0.1 := by
        by_contra hne2
        exact hnotin (List.mem_filter.mpr ⟨hkv, by simp [hne2]⟩)
      have hkv0 : kv0 ∈ reg := List.mem_of_find?_eq_some hfind
      have heq : kv = kv0 := eq_of_mem_of_key_eq Prod.fst hnd hkv hkv0 hkey
      rw [heq]
      have hb0 := List.find?_some hfind
      have hb : (kv0.2 == sid) = true := hb0
      exact eq_of_beq hb
  · intro u hu
    unfold SocketService.disconnectStep at hu
    cases hfind : reg.find? (fun e => e.2 == sid) with
    | none =>
      rw [hfind] at hu
      exact absurd hu (by simp)
    | some kv0 =>
      rw [hfind] at hu
      dsimp only at hu
      have hb0 := List.find?_some hfind
      have hb : (kv0.2 == sid) = true := hb0
      exact ⟨kv0, List.mem_of_find?_eq_some hfind, Option.some.inj hu, eq_of_beq hb⟩

/-- Witness for C10: after user 7's binding was superseded by socket "b", a
late disconnect of the old socket "a" leaves the registry — including the
fresh binding — untouched and reports nobody as gone offline. -/
theorem C10_disconnect_handle_identity_witness :
    SocketService.disconnectStep [(3, "z"), (7, "b")] "a" = ([(3, "z"), (7, "b")], none) := by
  exact (C10_disconnect_handle_identity [(3, "z"), (7, "b")] "a" (by decide)).1 (by decide)

/-- Claim C3: group history first resolves the caller's current active
joinedAt and fails with the not-a-member error when there is none;
otherwise, for every limit/offset page, it returns only messages of that
group with timestamp at or after that joinedAt and the tombstone flag
unset, ordered newest-first by timestamp. -/
theorem C3_group_membership_window (db : GroupDB) (groupId userId : Int)
    (limit offset : Nat) :
    (GroupRepository.getMemberJoinedAt db groupId userId = none →
      GroupRepository.getGroupMessages db groupId userId limit offset =
        Except.error "No eres miembro de este grupo") ∧
    (∀ joinedAt, GroupRepository.getMemberJoinedAt db groupId userId = some joinedAt →
      ∃ msgs, GroupRepository.getGroupMessages db groupId userId limit offset =
          Except.ok msgs ∧
        (∀ gm ∈ msgs, gm ∈ db.messages ∧ gm.groupId = groupId ∧
          joinedAt ≤ gm.timestamp ∧ gm.isDeletedForAll = false) ∧
        List.Sorted gtsGe msgs) := by
  constructor
  · intro hnone
    unfold GroupRepository.getGroupMessages
    rw [hnone]
  · intro j hj
    unfold GroupRepository.getGroupMessages
    rw [hj]
    dsimp only
    refine ⟨_, rfl, ?_, ?_⟩
    · intro gm hgm
      have h1 := (List.drop_subset _ _) ((List.take_subset _ _) hgm)
      have h2 := (List.mem_insertionSort gtsGe).mp h1
      obtain ⟨hmem, hpred⟩ := List.mem_filter.mp h2
      unfold GroupRepository.visiblePred at hpred
      simp only [Bool.and_eq_true, beq_iff_eq, decide_eq_true_eq,
        Bool.not_eq_true'] at hpred
      exact ⟨hmem, hpred.1.1, hpred.1.2, hpred.2⟩
    · exact List.Pairwise.sublist
        ((List.take_sublist _ _).trans (List.drop_sublist _ _))
        (List.sorted_insertionSort gtsGe _)

/-- Witness for C3: a caller with no membership row gets exactly the
not-a-member error, and a member who joined at time 100 gets back only the
message from time 150 — the pre-join message from time 50 and the
tombstoned one are filtered out — in a sorted page. -/
theorem C3_group_membership_window_witness :
    GroupRepository.getGroupMessages ⟨[], [], []⟩ 1 5 50 0 =
      Except.error "No eres miembro de este grupo" ∧
    List.Sorted gtsGe [⟨2, 1, 7, "e2", "i2", 150, none, false, none⟩] := by
  constructor
  · exact (C3_group_membership_window ⟨[], [], []⟩ 1 5 50 0).1 rfl
  · obtain ⟨msgs, heq, -, hsort⟩ :=
      (C3_group_membership_window
        ⟨[], [⟨1, 1, 5, 100, none, 7⟩],
          [⟨1, 1, 7, "e1", "i1", 50, none, false, none⟩,
           ⟨2, 1, 7, "e2", "i2", 150, none, false, none⟩,
           ⟨3, 1, 7, "e3", "i3", 200, none, true, some 300⟩]⟩ 1 5 50 0).2 100 rfl
    have hmsgs : msgs = [⟨2, 1, 7, "e2", "i2", 150, none, false, none⟩] := by
      have heval : GroupRepository.getGroupMessages
          ⟨[], [⟨1, 1, 5, 100, none, 7⟩],
            [⟨1, 1, 7, "e1", "i1", 50, none, false, none⟩,
             ⟨2, 1, 7, "e2", "i2", 150, none, false, none⟩,
             ⟨3, 1, 7, "e3", "i3", 200, none, true, some 300⟩]⟩ 1 5 50 0 =
          Except.ok [⟨2, 1, 7, "e2", "i2", 150, none, false, none⟩] := by rfl
      rw [heval] at heq
      exact (Except.ok.inj heq).symm
    rw [← hmsgs]
    exact hsort

/-- Claim C4: for every unordered user pair, incrementUnreadCount bumps
exactly the receiver's canonical counter column and resetUnreadCount zeros
exactly the caller's, leaving the other side's counter untouched, so N
sends from A to B raise B's counter by exactly N regardless of which
canonical side A occupies; rows of other pairs are never touched. -/
theorem C4_unread_counter_sides (db : List Conversation) (a b : Int) (N : Nat)
    (hab : a ≠ b) :
    ((fun d => ConversationRepository.incrementUnreadCount d b a)^[N] db =
      db.map ((ConversationRepository.incRow b a)^[N])) ∧
    (∀ c : Conversation, c.user1_id = min a b → c.user2_id = max a b →
      (ConversationRepository.unreadOf ((ConversationRepository.incRow b a)^[N] c) b =
          ConversationRepository.unreadOf c b + N ∧
        ConversationRepository.unreadOf ((ConversationRepository.incRow b a)^[N] c) a =
          ConversationRepository.unreadOf c a) ∧
      (ConversationRepository.unreadOf (ConversationRepository.resetRow a b c) a = 0 ∧
        ConversationRepository.unreadOf (ConversationRepository.resetRow a b c) b =
          ConversationRepository.unreadOf c b)) ∧
    (∀ c : Conversation,
      ConversationRepository.pairMatches (min a b) (max a b) c = false →
      ConversationRepository.incRow b a c = c ∧
        ConversationRepository.resetRow a b c = c) ∧
    ConversationRepository.resetUnreadCount db a b =
      db.map (ConversationRepository.resetRow a b) := by
  refine ⟨?_, ?_, ?_, rfl⟩
  · induction N with
    | zero => simp
    | succ n ih =>
      rw [Function.iterate_succ_apply', ih]
      unfold ConversationRepository.incrementUnreadCount
      rw [List.map_map, Function.iterate_succ']
  · intro c h1 h2
    exact ⟨⟨(incRow_iterate hab h1 h2 N).1, (incRow_iterate hab h1 h2 N).2.1⟩,
      resetRow_canonical hab h1 h2⟩
  · intro c hno
    exact row_nonmatching hno

/-- Witness for C4: three sends from user 1 to user 2 on a fresh canonical
row raise user 2's counter to exactly 3, and user 1's reset zeros only
user 1's column. -/
theorem C4_unread_counter_sides_witness :
    ConversationRepository.unreadOf
        ((ConversationRepository.incRow 2 1)^[3] ⟨1, 1, 2, none, 0, 0⟩) 2 = 3 ∧
    ConversationRepository.unreadOf
        (ConversationRepository.resetRow 1 2 ⟨1, 1, 2, none, 5, 4⟩) 1 = 0 ∧
    ConversationRepository.unreadOf
        (ConversationRepository.resetRow 1 2 ⟨1, 1, 2, none, 5, 4⟩) 2 = 4 := by
  refine ⟨?_, ?_, ?_⟩
  · have h := ((C4_unread_counter_sides [] 1 2 3 (by decide)).2.1
      ⟨1, 1, 2, none, 0, 0⟩ (by decide) (by decide)).1.1
    simpa using h
  · exact ((C4_unread_counter_sides [] 1 2 3 (by decide)).2.1
      ⟨1, 1, 2, none, 5, 4⟩ (by decide) (by decide)).2.1
  · have h := ((C4_unread_counter_sides [] 1 2 3 (by decide)).2.1
      ⟨1, 1, 2, none, 5, 4⟩ (by decide) (by decide)).2.2
    simpa using h

/-- Claim C2: for a direct message between two distinct users, deleteMessage
by one side sets only that side's deletion flag (every other row and every
other column of the target row unchanged); if the other side's flag is
already true the row is physically purged immediately; and after a
one-sided delete the message still appears in the other side's
getConversationHistory result while being absent from every page of the
deleting side's result. -/
theorem C2_soft_delete_per_side (db : List Message) (m : Message)
    (hm : m ∈ db) (hnd : (db.map Message.id).Nodup)
    (hne : m.sender_id ≠ m.receiver_id)
    (hps : 0 < m.sender_id) (hpr : 0 < m.receiver_id) :
    (m.deleted_by_receiver = false →
      MessageRepository.deleteMessage db m.id m.sender_id =
        Except.ok (db.map (MessageRepository.setSenderFlag m.id)) ∧
      (∃ msgs, MessageRepository.getConversationHistory
          (db.map (MessageRepository.setSenderFlag m.id))
          (m.receiver_id : ℚ) (m.sender_id : ℚ) ((db.length : ℚ)) 0 = Except.ok msgs ∧
        MessageRepository.setSenderFlag m.id m ∈ msgs) ∧
      (∀ (L O : ℚ) msgs, MessageRepository.getConversationHistory
          (db.map (MessageRepository.setSenderFlag m.id))
          (m.sender_id : ℚ) (m.receiver_id : ℚ) L O = Except.ok msgs →
        ∀ x ∈ msgs, x.id ≠ m.id)) ∧
    (m.deleted_by_sender = false →
      MessageRepository.deleteMessage db m.id m.receiver_id =
        Except.ok (db.map (MessageRepository.setReceiverFlag m.id)) ∧
      (∃ msgs, MessageRepository.getConversationHistory
          (db.map (MessageRepository.setReceiverFlag m.id))
          (m.sender_id : ℚ) (m.receiver_id : ℚ) ((db.length : ℚ)) 0 = Except.ok msgs ∧
        MessageRepository.setReceiverFlag m.id m ∈ msgs) ∧
      (∀ (L O : ℚ) msgs, MessageRepository.getConversationHistory
          (db.map (MessageRepository.setReceiverFlag m.id))
          (m.receiver_id : ℚ) (m.sender_id : ℚ) L O = Except.ok msgs →
        ∀ x ∈ msgs, x.id ≠ m.id)) ∧
    (m.deleted_by_receiver = true →
      MessageRepository.deleteMessage db m.id m.sender_id =
        Except.ok ((db.map (MessageRepository.setSenderFlag m.id)).filter
          (fun x => !(x.id == m.id)))) ∧
    (m.deleted_by_sender = true →
      MessageRepository.deleteMessage db m.id m.receiver_id =
        Except.ok ((db.map (MessageRepository.setReceiverFlag m.id)).filter
          (fun x => !(x.id == m.id)))) := by
  refine ⟨?_, ?_, ?_, ?_⟩
  · intro hdbr
    refine ⟨deleteMessage_sender_eq hm hnd hdbr, ?_, ?_⟩
    · have hlen : (db.map (MessageRepository.setSenderFlag m.id)).length = db.length :=
        List.length_map db _
      rw [← hlen]
      exact mem_history_full (List.mem_map_of_mem _ hm) hpr hps
        (by simp [MessageRepository.historyPred, MessageRepository.setSenderFlag, hdbr])
    · intro L O msgs hok x hx hxid
      obtain ⟨hxdb, hpred⟩ := mem_of_history_ok hok hx
      rw [Rat.num_intCast, Rat.num_intCast] at hpred
      have hnd1 : ((db.map (MessageRepository.setSenderFlag m.id)).map Message.id).Nodup := by
        rw [map_id_setSenderFlag]
        exact hnd
      have hm1 : MessageRepository.setSenderFlag m.id m ∈
          db.map (MessageRepository.setSenderFlag m.id) := List.mem_map_of_mem _ hm
      have hxm : x = MessageRepository.setSenderFlag m.id m :=
        eq_of_mem_of_key_eq Message.id hnd1 hxdb hm1 (by rw [hxid, setSenderFlag_id])
      rw [hxm] at hpred
      simp [MessageRepository.historyPred, MessageRepository.setSenderFlag, hne] at hpred
  · intro hdbs
    refine ⟨deleteMessage_receiver_eq hm hnd hne hdbs, ?_, ?_⟩
    · have hlen : (db.map (MessageRepository.setReceiverFlag m.id)).length = db.length :=
        List.length_map db _
      rw [← hlen]
      exact mem_history_full (List.mem_map_of_mem _ hm) hps hpr
        (by simp [MessageRepository.historyPred, MessageRepository.setReceiverFlag, hdbs])
    · intro L O msgs hok x hx hxid
      obtain ⟨hxdb, hpred⟩ := mem_of_history_ok hok hx
      rw [Rat.num_intCast, Rat.num_intCast] at hpred
      have hnd1 : ((db.map (MessageRepository.setReceiverFlag m.id)).map Message.id).Nodup := by
        rw [map_id_setReceiverFlag]
        exact hnd
      have hm1 : MessageRepository.setReceiverFlag m.id m ∈
          db.map (MessageRepository.setReceiverFlag m.id) := List.mem_map_of_mem _ hm
      have hxm : x = MessageRepository.setReceiverFlag m.id m :=
        eq_of_mem_of_key_eq Message.id hnd1 hxdb hm1 (by rw [hxid, setReceiverFlag_id])
      rw [hxm] at hpred
      simp [MessageRepository.historyPred, MessageRepository.setReceiverFlag, hne] at hpred
  · intro hdbr
    exact deleteMessage_sender_purge hm hnd hdbr
  · intro hdbs
    exact deleteMessage_receiver_purge hm hnd hne hdbs

/-- Witness for C2: a fresh one-message store — the sender's delete sets
exactly the sender flag; and when the sender flag was already set, the
receiver's delete physically purges the row. -/
theorem C2_soft_delete_per_side_witness :
    MessageRepository.deleteMessage
        [⟨1, 1, 2, "e", "i", 10, false, false, false⟩] 1 1 =
      Except.ok ([⟨1, 1, 2, "e", "i", 10, false, false, false⟩].map
        (MessageRepository.setSenderFlag 1)) ∧
    MessageRepository.deleteMessage
        [⟨1, 1, 2, "e", "i", 10, false, true, false⟩] 1 2 =
      Except.ok (([⟨1, 1, 2, "e", "i", 10, false, true, false⟩].map
        (MessageRepository.setReceiverFlag 1)).filter (fun x => !(x.id == 1))) := by
  constructor
  · exact ((C2_soft_delete_per_side [⟨1, 1, 2, "e", "i", 10, false, false, false⟩]
      ⟨1, 1, 2, "e", "i", 10, false, false, false⟩
      (by decide) (by decide) (by decide) (by decide) (by decide)).1 rfl).1
  · exact (C2_soft_delete_per_side [⟨1, 1, 2, "e", "i", 10, false, true, false⟩]
      ⟨1, 1, 2, "e", "i", 10, false, true, false⟩
      (by decide) (by decide) (by decide) (by decide) (by decide)).2.2.2 rfl

/-- Claim C5 counterexample: the claim says an edit or delete attempt by a
caller who is not the message's author always fails with an authorization
error. For the direct message with id 1 authored by user 1, the delete
attempt by user 2 — the receiver, not the author — succeeds: the repository
returns normally and records the receiver-side deletion flag. -/
theorem C5_counterexample_receiver_delete_succeeds :
    MessageRepository.deleteMessage
        [⟨1, 1, 2, "e", "i", 10, false, false, false⟩] 1 2 =
      Except.ok [⟨1, 1, 2, "e", "i", 10, false, false, true⟩] := by rfl

/-- Claim C5 as amended: for group messages, an edit or delete attempt by a
caller who is not the author always fails — the repository reports
null/false, which the service surfaces as one collapsed
authorization/not-found error — regardless of whether the message exists;
a direct-message edit by a non-author likewise fails with the collapsed
error; removing the group admin from their own group always fails; but
direct-message deletion is not author-restricted: whenever the message
exists, deleteMessage returns successfully for any caller (the receiver's
delete records their own side's flag). -/
theorem C5_amended_authorization :
    (∀ (db : GroupDB) (data : GroupRepository.UpdateGroupMessageDTO) (now : Int),
      (∀ gm ∈ db.messages, gm.id = data.messageId → gm.senderId ≠ data.userId) →
      GroupRepository.updateGroupMessage db data now = none) ∧
    (∀ (db : GroupDB) (messageId userId : Int) (dfa : Bool) (now : Int),
      (∀ gm ∈ db.messages, gm.id = messageId → gm.senderId ≠ userId) →
      GroupRepository.deleteGroupMessage db messageId userId dfa now = (db, false)) ∧
    (∀ (db : GroupDB) (groupId targetId removedById now : Int),
      (∀ g ∈ db.groups, g.id = groupId → g.adminUserId = targetId) →
      GroupRepository.removeMember db groupId targetId removedById now = (db, false)) ∧
    (∀ (db : List Message) (messageId userId : Int) (enc ivx : String),
      (∀ m ∈ db, m.id = messageId → m.sender_id ≠ userId) →
      ChatService.editMessage db messageId userId enc ivx =
        Except.error "No tienes permisos para editar este mensaje o el mensaje no existe") ∧
    (∀ (db : List Message) (messageId userId : Int),
      (∃ x ∈ db, (x.id == messageId) = true) →
      (MessageRepository.deleteMessage db messageId userId).isOk = true) := by
  refine ⟨?_, ?_, ?_, ?_, ?_⟩
  · intro db data now hno
    unfold GroupRepository.updateGroupMessage
    cases hfind : db.messages.find? (fun gm => gm.id == data.messageId) with
    | none => rfl
    | some check =>
      have hb0 := List.find?_some hfind
      have hb : (check.id == data.messageId) = true := hb0
      have hns : check.senderId ≠ data.userId :=
        hno check (List.mem_of_find?_eq_some hfind) (eq_of_beq hb)
      dsimp only
      rw [if_neg (by simp [hns])]
  · intro db messageId userId dfa now hno
    unfold GroupRepository.deleteGroupMessage
    cases hfind : db.messages.find? (fun gm => gm.id == messageId) with
    | none => rfl
    | some check =>
      have hb0 := List.find?_some hfind
      have hb : (check.id == messageId) = true := hb0
      have hns : check.senderId ≠ userId :=
        hno check (List.mem_of_find?_eq_some hfind) (eq_of_beq hb)
      dsimp only
      rw [if_neg (by simp [hns])]
  · intro db groupId targetId removedById now hno
    unfold GroupRepository.removeMember
    cases hadm : GroupRepository.isGroupAdmin db groupId removedById with
    | false => rfl
    | true =>
      rw [if_pos rfl]
      unfold GroupRepository.isGroupAdmin at hadm
      obtain ⟨g1, hg1mem, hg1p⟩ := List.any_eq_true.mp hadm
      simp only [Bool.and_eq_true] at hg1p
      have hex : ∃ y, db.groups.find? (fun x => x.id == groupId) = some y :=
        Option.isSome_iff_exists.mp ((List.find?_isSome).mpr ⟨g1, hg1mem, hg1p.1⟩)
      obtain ⟨g0, hg0⟩ := hex
      have hb0 := List.find?_some hg0
      have hb : (g0.id == groupId) = true := hb0
      have hadmEq : g0.adminUserId = targetId :=
        hno g0 (List.mem_of_find?_eq_some hg0) (eq_of_beq hb)
      unfold GroupRepository.getGroupById
      rw [hg0]
      rw [if_pos (by simp [hadmEq])]
  · intro db messageId userId enc ivx hno
    unfold ChatService.editMessage
    cases hfind : db.find? (fun m => m.id == messageId) with
    | none => rfl
    | some msg =>
      have hb0 := List.find?_some hfind
      have hb : (msg.id == messageId) = true := hb0
      have hns : msg.sender_id ≠ userId :=
        hno msg (List.mem_of_find?_eq_some hfind) (eq_of_beq hb)
      dsimp only
      rw [if_neg (by simp [hns])]
  · intro db messageId userId hex
    obtain ⟨db2, hdb2⟩ := deleteMessage_isOk hex
    rw [hdb2]
    rfl

/-- Witness for the amended C5: user 9 is not the author of group message 1
(authored by 7), so edit and delete both refuse; removing admin 7 from
their own group fails even when the admin themself asks; the non-author
direct edit fails with the collapsed error; and the direct delete by the
receiver goes through. -/
theorem C5_amended_authorization_witness :
    GroupRepository.updateGroupMessage
        ⟨[], [], [⟨1, 1, 7, "e", "i", 0, none, false, none⟩]⟩ ⟨1, 9, "e2", "i2"⟩ 5 = none ∧
    GroupRepository.deleteGroupMessage
        ⟨[], [], [⟨1, 1, 7, "e", "i", 0, none, false, none⟩]⟩ 1 9 true 5 =
      (⟨[], [], [⟨1, 1, 7, "e", "i", 0, none, false, none⟩]⟩, false) ∧
    GroupRepository.removeMember
        ⟨[⟨1, "Team", none, none, 7⟩], [⟨1, 1, 7, 0, none, 7⟩], []⟩ 1 7 7 9 =
      (⟨[⟨1, "Team", none, none, 7⟩], [⟨1, 1, 7, 0, none, 7⟩], []⟩, false) ∧
    ChatService.editMessage [⟨1, 1, 2, "e", "i", 0, false, false, false⟩] 1 2 "x" "y" =
      Except.error "No tienes permisos para editar este mensaje o el mensaje no existe" ∧
    (MessageRepository.deleteMessage [⟨1, 1, 2, "e", "i", 0, false, false, false⟩] 1 2).isOk =
      true := by
  refine ⟨?_, ?_, ?_, ?_, ?_⟩
  · exact C5_amended_authorization.1
      ⟨[], [], [⟨1, 1, 7, "e", "i", 0, none, false, none⟩]⟩ ⟨1, 9, "e2", "i2"⟩ 5 (by decide)
  · exact C5_amended_authorization.2.1
      ⟨[], [], [⟨1, 1, 7, "e", "i", 0, none, false, none⟩]⟩ 1 9 true 5 (by decide)
  · exact C5_amended_authorization.2.2.1
      ⟨[⟨1, "Team", none, none, 7⟩], [⟨1, 1, 7, 0, none, 7⟩], []⟩ 1 7 7 9 (by decide)
  · exact C5_amended_authorization.2.2.2.1
      [⟨1, 1, 2, "e", "i", 0, false, false, false⟩] 1 2 "x" "y" (by decide)
  · exact C5_amended_authorization.2.2.2.2
      [⟨1, 1, 2, "e", "i", 0, false, false, false⟩] 1 2 (by decide)

end WhatsappV3
